import Mathlib

/-!
Verification development for the `gameplay` kinematic character controller
(`PhysicsCharacter`, `PhysicsCollisionShape`, `Quaternion`).

Machine scalars (`float`, `btScalar`) are embedded as exact rationals `ℚ`;
the claims under study are about control flow, state-machine structure and
algebraic shape of the computations, not about rounding.  Bullet vectors
(`btVector3`) become a rational 3-vector structure, quaternions a rational
4-component structure.  C++ member-function mutation is made explicit: a
method that mutates `*this` is embedded as a function returning the new
value of the receiver (paired with the returned value where the two differ).
-/

namespace GamePlay

/-- Embedding of `btVector3` / `gameplay::Vector3` with exact rational
components. -/
structure Vec3 where
  x : ℚ
  y : ℚ
  z : ℚ
deriving DecidableEq, Repr

namespace Vec3

def add (a b : Vec3) : Vec3 := ⟨a.x + b.x, a.y + b.y, a.z + b.z⟩

def sub (a b : Vec3) : Vec3 := ⟨a.x - b.x, a.y - b.y, a.z - b.z⟩

def smul (c : ℚ) (a : Vec3) : Vec3 := ⟨c * a.x, c * a.y, c * a.z⟩

def dot (a b : Vec3) : ℚ := a.x * b.x + a.y * b.y + a.z * b.z

def zero : Vec3 := ⟨0, 0, 0⟩

/-- The world up axis (`+y` in gameplay). -/
def up : Vec3 := ⟨0, 1, 0⟩

instance : Add Vec3 := ⟨add⟩

instance : Sub Vec3 := ⟨sub⟩

theorem add_def (a b : Vec3) : a + b = ⟨a.x + b.x, a.y + b.y, a.z + b.z⟩ := rfl

theorem sub_def (a b : Vec3) : a - b = ⟨a.x - b.x, a.y - b.y, a.z - b.z⟩ := rfl

end Vec3

/-- Embedding of `gameplay::Quaternion` (fields `x,y,z,w`). -/
structure Quaternion where
  x : ℚ
  y : ℚ
  z : ℚ
  w : ℚ
deriving DecidableEq, Repr

namespace Quaternion

/-- Embedding of `Quaternion::multiply(q)`: the Hamilton product of the
receiver with `q` (returned as the new value of the receiver).  Modelled
from the spec: the body of `Quaternion::multiply` lives in `Quaternion.cpp`,
which is not among the sources; the standard quaternion product in
`x,y,z,w` layout is used, matching the class's documented meaning. -/
def multiply (a b : Quaternion) : Quaternion :=
  ⟨a.w * b.x + a.x * b.w + a.y * b.z - a.z * b.y,
   a.w * b.y + a.y * b.w + a.z * b.x - a.x * b.z,
   a.w * b.z + a.z * b.w + a.x * b.y - a.y * b.x,
   a.w * b.w - a.x * b.x - a.y * b.y - a.z * b.z⟩

/-- The quaternion conjugate, used to rotate vectors. -/
def conjugate (a : Quaternion) : Quaternion := ⟨-a.x, -a.y, -a.z, a.w⟩

/-- Embedding of `Quaternion::operator*(const Quaternion& q)`
(`Quaternion.inl`): copies `*this` into `result`, multiplies the copy by
`q`, and returns it.  The first component of the pair is the value of the
receiver after the call (C++ state made explicit), the second the value
returned. -/
def opMul (this q : Quaternion) : Quaternion × Quaternion :=
  let result := this
  let result := result.multiply q
  (this, result)

/-- Embedding of `Quaternion::operator*=(const Quaternion& q)`
(`Quaternion.inl`): multiplies the receiver in place and returns a reference
to it.  The first component is the receiver after the call, the second the
value of the returned reference. -/
def opMulAssign (this q : Quaternion) : Quaternion × Quaternion :=
  let this := this.multiply q
  (this, this)

/-- Rotation of a vector by a quaternion: the vector part of
`q * (v, 0) * conj q`. -/
def rotate (q : Quaternion) (v : Vec3) : Vec3 :=
  let p : Quaternion := ⟨v.x, v.y, v.z, 0⟩
  let r := q.multiply (p.multiply q.conjugate)
  ⟨r.x, r.y, r.z⟩

end Quaternion

/-! ### Animation binding

The animation table of `PhysicsCharacter` is declared in the header as
`std::map<const char*, CharacterAnimation> _animations` together with
`std::map<unsigned int, CharacterAnimation*> _layers`.  A `const char*` key
under the map's default comparator is ordered by pointer value, so the table
is keyed on pointer identity, not on string contents.  A C string is
embedded as a pointer identity plus the character data it points at. -/

/-- A `const char*` value: the pointer (its identity, as an abstract
address) and the character data it points at. -/
structure CStr where
  ptr : Nat
  str : String
deriving DecidableEq, Repr

/-- Embedding of `PhysicsCharacter::AnimationFlags` (`PhysicsCharacter.h`,
lines 38–54). -/
inductive AnimationFlags
  | ANIMATION_STOP
  | ANIMATION_RESUME
  | ANIMATION_REPEAT
deriving DecidableEq, Repr

/-- Embedding of `PhysicsCharacter::CharacterAnimation`
(`PhysicsCharacter.h`, lines 239–249).  The `AnimationClip*` is an opaque
identity; the `CharacterAnimation* prev` back-reference is embedded as the
key of the referenced entry in the animation table. -/
structure CharacterAnimation where
  name : CStr
  clip : Nat
  moveSpeed : ℚ
  layer : Nat
  playing : Bool
  animationFlags : AnimationFlags
  blendDuration : Nat
  prev : Option Nat
deriving DecidableEq, Repr

/-- Error taxonomy of the spec for the animation API: `ConfigurationError`
(duplicate registration) and `NotFoundError` (playing an unregistered
name). -/
inductive AnimError
  | DuplicateKey
  | NotFound
deriving DecidableEq, Repr

/-- The animation-related state of a `PhysicsCharacter`: `_animations`
(a map keyed by `const char*`, i.e. by pointer identity) and `_layers`
(layer id to the key of the active entry). -/
structure AnimState where
  animations : List (Nat × CharacterAnimation)
  layers : List (Nat × Nat)
deriving DecidableEq, Repr

/-- Lookup by key in an association list (the embedding of `std::map`
lookup; keys are unique in reachable states). -/
def lookupKey {β : Type} (k : Nat) : List (Nat × β) → Option β
  | [] => none
  | p :: l => if p.1 = k then some p.2 else lookupKey k l

/-- The keys of an association list. -/
def keys {β : Type} (l : List (Nat × β)) : List Nat := l.map Prod.fst

/-- The empty animation state of a freshly constructed character. -/
def initAnimState : AnimState := ⟨[], []⟩

/-- Modelled from the spec: the body of `PhysicsCharacter::addAnimation` is
not among the sources (the header declares it at line 123).  Per §4.2 it
"registers or fails with DuplicateKey if name already present"; on success
a new entry with the given clip and move-speed is inserted, initially not
playing. -/
def addAnimation (st : AnimState) (name : CStr) (clip : Nat) (moveSpeed : ℚ) :
    AnimState × Option AnimError :=
  match lookupKey name.ptr st.animations with
  | some _ => (st, some .DuplicateKey)
  | none =>
      ({ st with animations :=
          (name.ptr, ⟨name, clip, moveSpeed, 0, false, .ANIMATION_STOP, 0, none⟩)
            :: st.animations },
       none)

/-- Modelled from the spec: the body of `PhysicsCharacter::getAnimation` is
not among the sources (declared at header line 130).  Returns the clip of
the entry registered under the given name, looked up by the map's key
(pointer identity); `none` embeds a NULL return. -/
def getAnimation (st : AnimState) (name : CStr) : Option Nat :=
  (lookupKey name.ptr st.animations).map (fun e => e.clip)

/-- Per-entry update of `stopLayer`: clears the `playing` flag of the entry
with key `k`. -/
def stopUpd (k k2 : Nat) (e : CharacterAnimation) : CharacterAnimation :=
  if k2 = k then { e with playing := false } else e

/-- Modelled from the spec: stopping whatever is active on a layer
(`play(NULL, ...)` per the header doc of `play`, line 154): the active
entry's `playing` flag is cleared and the layer slot is removed
(transition to Idle). -/
def stopLayer (st : AnimState) (layer : Nat) : AnimState :=
  match lookupKey layer st.layers with
  | none => st
  | some k =>
      { animations := st.animations.map fun p => (p.1, stopUpd k p.1 p.2),
        layers := st.layers.filter fun p => p.1 != layer }

/-- Per-entry update of `activate`: the entry with key `k` becomes playing
on `layer` (with `f` applied first, letting the caller store flags and the
`prev` back-reference), the previously active entry `prevKey` is marked not
playing, all others are untouched. -/
def activateUpd (k layer : Nat) (prevKey : Option Nat)
    (f : Option Nat → CharacterAnimation → CharacterAnimation)
    (k2 : Nat) (e : CharacterAnimation) : CharacterAnimation :=
  if k2 = k then { f prevKey e with playing := true, layer := layer }
  else if prevKey = some k2 then { e with playing := false }
  else e

/-- Modelled from the spec: the common activation step of
`PhysicsCharacter::play` (§4.2): the previously active entry on the layer
is recorded (passed to `f` so the caller can store it in `prev`) and marked
not playing, the entry `k` becomes the layer's active entry with
`playing == true`, and any stale slot still referencing `k` is cleared so
that each layer holds at most one active animation and an entry is active
on at most one layer (spec glossary and §3 invariants). -/
def activate (st : AnimState) (k : Nat) (layer : Nat)
    (f : Option Nat → CharacterAnimation → CharacterAnimation) : AnimState :=
  { animations := st.animations.map fun p =>
      (p.1, activateUpd k layer (lookupKey layer st.layers) f p.1 p.2),
    layers := (layer, k) :: st.layers.filter fun p => p.1 != layer && p.2 != k }

/-- Modelled from the spec: the body of `PhysicsCharacter::play` is not
among the sources (declared at header line 161).  Per §4.2: a null name
stops the layer; an unregistered name signals NotFound and leaves the state
unchanged; otherwise the entry is activated on the layer, recording the
previously active entry in `prev` and storing the playback flags and blend
duration.  The advisory `animationSpeed` parameter is forwarded to the
external clip driver and not stored in the entry. -/
def play (st : AnimState) (name : Option CStr) (flags : AnimationFlags)
    (blendDuration : Nat) (layer : Nat) : AnimState × Option AnimError :=
  match name with
  | none => (stopLayer st layer, none)
  | some nm =>
      match lookupKey nm.ptr st.animations with
      | none => (st, some .NotFound)
      | some _ =>
          (activate st nm.ptr layer
            (fun prevKey e =>
              { e with animationFlags := flags, blendDuration := blendDuration,
                       prev := prevKey }),
           none)

/-- Modelled from the spec: the clip's natural completion signal (§4.2, an
external animation-engine event).  `ANIMATION_REPEAT` never
auto-transitions; `ANIMATION_STOP` transitions the layer to Idle;
`ANIMATION_RESUME` restores the previously active entry. -/
def clipCompleted (st : AnimState) (layer : Nat) : AnimState :=
  match lookupKey layer st.layers with
  | none => st
  | some k =>
      match lookupKey k st.animations with
      | none => st
      | some e =>
          match e.animationFlags with
          | .ANIMATION_REPEAT => st
          | .ANIMATION_STOP => stopLayer st layer
          | .ANIMATION_RESUME =>
              let st1 := stopLayer st layer
              match e.prev with
              | none => st1
              | some pk =>
                  match lookupKey pk st1.animations with
                  | none => st1
                  | some _ => activate st1 pk layer (fun _ e2 => e2)

/-- The operations that mutate the animation state: registration, playback
requests, and clip-completion signals from the animation engine. -/
inductive AnimOp
  | add (name : CStr) (clip : Nat) (moveSpeed : ℚ)
  | playAnim (name : Option CStr) (flags : AnimationFlags)
      (blendDuration : Nat) (layer : Nat)
  | completed (layer : Nat)

/-- Applies one animation operation to the state. -/
def applyOp (st : AnimState) : AnimOp → AnimState
  | .add name clip ms => (addAnimation st name clip ms).1
  | .playAnim name flags blend layer => (play st name flags blend layer).1
  | .completed layer => clipCompleted st layer

/-- Runs a sequence of animation operations from the initial state. -/
def runOps (ops : List AnimOp) : AnimState := ops.foldl applyOp initAnimState

/-! ### Character state and per-tick update

The movement-related member state of `PhysicsCharacter` (header lines
280–300) together with the animation state.  `_fallVelocity` is kept as its
vertical component (the spec's "vertical fall velocity"). -/

/-- The mutable state of a `PhysicsCharacter` that the per-tick update
reads and writes. -/
structure CharacterState where
  position : Vec3
  orientation : Quaternion
  moveVelocity : Vec3
  forwardVelocity : ℚ
  rightVelocity : ℚ
  fallVelocity : ℚ
  currentVelocity : Vec3
  anim : AnimState
  stepHeight : ℚ
  cosSlopeAngle : ℚ

/-- The collision/sweep query contract of §6, abstracted from the Bullet
`btCollisionWorld`: the resolver depends only on these query shapes.
`stepUpClearance` is the free upward distance before the first contact;
`slideContact` gives the surface normal of the first contact when sweeping
the capsule from a position along a displacement (`none` when the sweep is
unobstructed); `groundDistance` is the distance down to the first ground
contact below a position (`none` when there is none in range).  `gravity`
is the world's (signed) vertical gravity. -/
structure World where
  gravity : ℚ
  stepUpClearance : Vec3 → ℚ
  slideContact : Vec3 → Vec3 → Option Vec3
  groundDistance : Vec3 → Option ℚ

/-- The character's local forward axis (`-z` in gameplay). -/
def localForward : Vec3 := ⟨0, 0, -1⟩

/-- The character's local right axis (`+x` in gameplay). -/
def localRight : Vec3 := ⟨1, 0, 0⟩

/-- The move-speed of the active animation fed to the velocity composer:
the move-speed of the entry active on the first occupied layer, or `none`
when no animation is bound (§4.2 side effect, §4.1 inputs). -/
def activeMoveSpeed (st : AnimState) : Option ℚ :=
  match st.layers with
  | [] => none
  | (_, k) :: _ =>
      match lookupKey k st.animations with
      | some e => some e.moveSpeed
      | none => none

/-- Modelled from the spec: the body of
`PhysicsCharacter::updateCurrentVelocity` is not among the sources
(declared at header line 266).  Per §4.1: the forward scalar, right scalar
and explicit move-velocity vector contribute additively in the character's
local basis, the combination is rotated into world space by the current
orientation and scaled by the active animation's move-speed, or by `1.0`
when no animation is bound. -/
def updateCurrentVelocity (s : CharacterState) : CharacterState :=
  let scale := (activeMoveSpeed s.anim).getD 1
  let localVel := Vec3.smul s.forwardVelocity localForward +
      Vec3.smul s.rightVelocity localRight + s.moveVelocity
  { s with currentVelocity := Vec3.smul scale (Quaternion.rotate s.orientation localVel) }

/-- Modelled from the spec: the body of `PhysicsCharacter::stepUp` is not
among the sources (declared at header line 270).  Per §4.3 step 1: sweep
the capsule upward by up to `stepHeight`; if blocked partway, clamp to the
first contact height. -/
def stepUp (w : World) (s : CharacterState) : CharacterState :=
  let rise := min s.stepHeight (w.stepUpClearance s.position)
  { s with position := ⟨s.position.x, s.position.y + rise, s.position.z⟩ }

/-- Embedding of
`PhysicsCharacter::updateTargetPositionFromCollision(btVector3& targetPosition, const btVector3& collisionNormal)`
(declared at header line 276); modelled from the spec, §4.3 step 2 /
glossary: standard collide-and-slide, removing from the movement
`targetPosition - currentPosition` its component along the contact normal
and keeping the tangential component. -/
def updateTargetPositionFromCollision (current target : Vec3) (collisionNormal : Vec3) : Vec3 :=
  target - Vec3.smul (Vec3.dot (target - current) collisionNormal) collisionNormal

/-- Modelled from the spec: the fixed iteration cap of the sliding
resolution loop of §4.3 step 2 ("prevents infinite loops on concave
corners"); the spec fixes no value, only that one exists. -/
def maxSlideIterations : Nat := 4

/-- Modelled from the spec: the sliding-resolution loop of §4.3 step 2.
Starting from `start` with a candidate `target`, query the first contact
along the movement; no contact, or a contact whose normal passes the slope
gate (its cosine against vertical at least `cosSlope`), lets the character
proceed; otherwise the movement is slid along the surface tangent and the
loop retries, consuming fuel.  `none` means the iteration cap was
exhausted. -/
def slideLoop (w : World) (start : Vec3) (cosSlope : ℚ) : Nat → Vec3 → Option Vec3
  | 0, _ => none
  | fuel + 1, target =>
      match w.slideContact start (target - start) with
      | none => some target
      | some n =>
          if cosSlope ≤ Vec3.dot n Vec3.up then some target
          else slideLoop w start cosSlope fuel
            (updateTargetPositionFromCollision start target n)

/-- Modelled from the spec: the body of
`PhysicsCharacter::stepForwardAndStrafe` is not among the sources (declared
at header line 274).  Per §4.3 step 2: sweep horizontally by
`currentVelocity * dt`, gate contact normals against the precomputed cosine
of the slope limit, slide iteratively, and if the iteration cap is hit,
freeze horizontal movement for the tick. -/
def stepForwardAndStrafe (w : World) (s : CharacterState) (dt : ℚ) : CharacterState :=
  match slideLoop w s.position s.cosSlopeAngle maxSlideIterations
      (s.position + Vec3.smul dt s.currentVelocity) with
  | some p => { s with position := p }
  | none => s

/-- Modelled from the spec: the body of `PhysicsCharacter::stepDown` is not
among the sources (declared at header line 272).  Per §4.3 step 3: sweep
downward; ground within `stepHeight` snaps the character onto it; otherwise
the character is airborne and the vertical fall velocity accumulates
constant gravity (`fallVelocity += gravity * dt`), applying the resulting
downward displacement instead of snapping. -/
def stepDown (w : World) (s : CharacterState) (dt : ℚ) : CharacterState :=
  match w.groundDistance s.position with
  | some d =>
      if d ≤ s.stepHeight then
        { s with position := ⟨s.position.x, s.position.y - d, s.position.z⟩,
                 fallVelocity := 0 }
      else
        let fv := s.fallVelocity + w.gravity * dt
        { s with fallVelocity := fv,
                 position := ⟨s.position.x, s.position.y + fv * dt, s.position.z⟩ }
  | none =>
      let fv := s.fallVelocity + w.gravity * dt
      { s with fallVelocity := fv,
               position := ⟨s.position.x, s.position.y + fv * dt, s.position.z⟩ }

/-- Whether the step-down sweep finds no ground within `stepHeight` of the
current position (the character is airborne, §4.3 step 3). -/
def isAirborne (w : World) (s : CharacterState) : Bool :=
  match w.groundDistance s.position with
  | some d => decide (s.stepHeight < d)
  | none => true

/-- Modelled from the spec: the body of `PhysicsCharacter::updateAction`
(the per-tick update entry point, declared at header line 230) is not among
the sources.  Per §2: recompute the current velocity from animation state,
then step-up, horizontal sweep-and-slide, and step-down. -/
def updateAction (w : World) (s : CharacterState) (dt : ℚ) : CharacterState :=
  stepDown w (stepForwardAndStrafe w (stepUp w (updateCurrentVelocity s)) dt) dt

/-! ### Association-list lemmas -/

theorem lookupKey_mem {β : Type} {k : Nat} {v : β} {l : List (Nat × β)}
    (h : lookupKey k l = some v) : (k, v) ∈ l := by
  induction l with
  | nil => exact absurd h (by simp [lookupKey])
  | cons p l ih =>
      rw [lookupKey] at h
      by_cases hp : p.1 = k
      · rw [if_pos hp] at h
        injection h with h
        subst h
        rw [← hp]
        exact List.mem_cons_self _ _
      · rw [if_neg hp] at h
        exact List.mem_cons_of_mem p (ih h)

theorem mem_lookupKey {β : Type} {k : Nat} {v : β} {l : List (Nat × β)}
    (nd : (keys l).Nodup) (h : (k, v) ∈ l) : lookupKey k l = some v := by
  induction l with
  | nil => simp at h
  | cons p l ih =>
      rw [keys, List.map_cons, List.nodup_cons] at nd
      rcases List.mem_cons.mp h with h1 | h1
      · rw [← h1, lookupKey, if_pos rfl]
      · have hk : p.1 ≠ k := by
          intro he
          exact nd.1 (he ▸ List.mem_map.mpr ⟨(k, v), h1, rfl⟩)
        rw [lookupKey, if_neg hk]
        exact ih nd.2 h1

theorem not_mem_keys_of_lookupKey_none {β : Type} {k : Nat} {l : List (Nat × β)}
    (h : lookupKey k l = none) : k ∉ keys l := by
  induction l with
  | nil => simp [keys]
  | cons p l ih =>
      rw [lookupKey] at h
      by_cases hp : p.1 = k
      · rw [if_pos hp] at h
        exact absurd h (by simp)
      · rw [if_neg hp] at h
        simp only [keys, List.map_cons, List.mem_cons]
        rintro (h1 | h1)
        · exact hp h1.symm
        · exact ih h h1

theorem key_unique {β : Type} {l : List (Nat × β)} (nd : (keys l).Nodup)
    {k : Nat} {v1 v2 : β} (h1 : (k, v1) ∈ l) (h2 : (k, v2) ∈ l) : v1 = v2 := by
  have e1 := mem_lookupKey nd h1
  have e2 := mem_lookupKey nd h2
  rw [e1] at e2
  injection e2 with e2

theorem val_unique {l : List (Nat × Nat)} (nd : (l.map Prod.snd).Nodup)
    {a b c : Nat} (h1 : (a, c) ∈ l) (h2 : (b, c) ∈ l) : a = b := by
  induction l with
  | nil => simp at h1
  | cons p l ih =>
      rw [List.map_cons, List.nodup_cons] at nd
      rcases List.mem_cons.mp h1 with g1 | g1 <;> rcases List.mem_cons.mp h2 with g2 | g2
      · rw [← g1] at g2
        injection g2 with g2 _
        exact g2.symm
      · exact absurd (List.mem_map.mpr ⟨(b, c), g2, by rw [← g1]⟩) nd.1
      · exact absurd (List.mem_map.mpr ⟨(a, c), g1, by rw [← g2]⟩) nd.1
      · exact ih nd.2 g1 g2

theorem lookupKey_map_keyed {β : Type} (g : Nat → β → β) (k : Nat)
    (l : List (Nat × β)) :
    lookupKey k (l.map fun p => (p.1, g p.1 p.2)) = (lookupKey k l).map (g k) := by
  induction l with
  | nil => rfl
  | cons p l ih =>
      simp only [List.map_cons, lookupKey]
      by_cases hp : p.1 = k
      · subst hp
        simp
      · simp [hp, ih]

theorem mem_map_keyed {β : Type} {g : Nat → β → β} {k : Nat} {v : β}
    {l : List (Nat × β)} :
    (k, v) ∈ (l.map fun p => (p.1, g p.1 p.2)) ↔ ∃ e, (k, e) ∈ l ∧ v = g k e := by
  rw [List.mem_map]
  constructor
  · rintro ⟨⟨pk, pv⟩, hp, he⟩
    injection he with h1 h2
    subst h1
    exact ⟨pv, hp, h2.symm⟩
  · rintro ⟨e, he, rfl⟩
    exact ⟨(k, e), he, rfl⟩

theorem keys_map_keyed {β : Type} (g : Nat → β → β) (l : List (Nat × β)) :
    keys (l.map fun p => (p.1, g p.1 p.2)) = keys l := by
  simp only [keys, List.map_map]
  rfl

theorem lookupKey_filter_ne_none {β : Type} (L : Nat) (l : List (Nat × β)) :
    lookupKey L (l.filter fun p => p.1 != L) = none := by
  induction l with
  | nil => rfl
  | cons p l ih =>
      rw [List.filter_cons]
      by_cases hp : p.1 = L
      · simp [hp, ih]
      · simp only [hp, bne_iff_ne, ne_eq, not_false_eq_true, if_pos]
        rw [lookupKey, if_neg hp]
        exact ih

/-! ### Vector and quaternion algebra -/

theorem Vec3.smul_one (v : Vec3) : Vec3.smul 1 v = v := by
  cases v
  simp [Vec3.smul]

theorem Vec3.add_zero_right (v : Vec3) : v + Vec3.zero = v := by
  cases v
  simp [Vec3.add_def, Vec3.zero]

theorem Vec3.sub_self_eq_zero (v : Vec3) : v - v = Vec3.zero := by
  cases v
  simp [Vec3.sub_def, Vec3.zero]

theorem Vec3.dot_zero_left (n : Vec3) : Vec3.dot Vec3.zero n = 0 := by
  cases n
  simp [Vec3.dot, Vec3.zero]

theorem Vec3.smul_zero_scalar (n : Vec3) : Vec3.smul 0 n = ⟨0, 0, 0⟩ := by
  cases n
  simp [Vec3.smul]

theorem Vec3.sub_zero_right (v : Vec3) : v - (⟨0, 0, 0⟩ : Vec3) = v := by
  cases v
  simp [Vec3.sub_def]

theorem Quaternion.rotate_add (q : Quaternion) (a b : Vec3) :
    Quaternion.rotate q (a + b) = Quaternion.rotate q a + Quaternion.rotate q b := by
  cases q
  cases a
  cases b
  simp only [Quaternion.rotate, Quaternion.multiply, Quaternion.conjugate, Vec3.add_def]
  rw [Vec3.mk.injEq]
  refine ⟨by ring, by ring, by ring⟩

theorem Quaternion.rotate_zero (q : Quaternion) :
    Quaternion.rotate q Vec3.zero = Vec3.zero := by
  cases q
  simp only [Quaternion.rotate, Quaternion.multiply, Quaternion.conjugate, Vec3.zero]
  rw [Vec3.mk.injEq]
  refine ⟨by ring, by ring, by ring⟩

theorem Vec3.smul_zero_vec (c : ℚ) : Vec3.smul c Vec3.zero = Vec3.zero := by
  simp [Vec3.smul, Vec3.zero]

/-! ### The animation-state invariant and its preservation -/

/-- The animation-state invariant (§3 of the spec, strengthened so that it
is closed under the operations): the animation table has no duplicate keys,
the layer table has no duplicate layers and no entry is active on two
layers, a layer's active entry is a registered entry that is playing on
that layer, and every playing entry is the active entry of its layer. -/
structure AnimInv (st : AnimState) : Prop where
  keysNodup : (keys st.animations).Nodup
  layerKeysNodup : (keys st.layers).Nodup
  layerValsNodup : (st.layers.map Prod.snd).Nodup
  activeEntry : ∀ layer k, (layer, k) ∈ st.layers →
      ∃ e, (k, e) ∈ st.animations ∧ e.playing = true ∧ e.layer = layer
  playingActive : ∀ k e, (k, e) ∈ st.animations → e.playing = true →
      (e.layer, k) ∈ st.layers

theorem animInv_init : AnimInv initAnimState := by
  refine ⟨?_, ?_, ?_, ?_, ?_⟩ <;> simp [initAnimState, keys]

theorem animInv_addAnimation (st : AnimState) (nm : CStr) (clip : Nat) (ms : ℚ)
    (h : AnimInv st) : AnimInv (addAnimation st nm clip ms).1 := by
  rcases hl : lookupKey nm.ptr st.animations with _ | e
  · simp only [addAnimation, hl]
    refine ⟨?_, h.layerKeysNodup, h.layerValsNodup, ?_, ?_⟩
    · rw [keys, List.map_cons, List.nodup_cons]
      exact ⟨not_mem_keys_of_lookupKey_none hl, h.keysNodup⟩
    · intro layer k hk
      obtain ⟨e, he, hp, hlay⟩ := h.activeEntry layer k hk
      exact ⟨e, List.mem_cons_of_mem _ he, hp, hlay⟩
    · intro k e he hp
      rcases List.mem_cons.mp he with h1 | h1
      · injection h1 with h1 h2
        subst h2
        simp at hp
      · exact h.playingActive k e h1 hp
  · simp only [addAnimation, hl]
    exact h

theorem animInv_stopLayer (st : AnimState) (L : Nat) (h : AnimInv st) :
    AnimInv (stopLayer st L) := by
  rcases hl : lookupKey L st.layers with _ | k
  · simp only [stopLayer, hl]
    exact h
  · have hkL : (L, k) ∈ st.layers := lookupKey_mem hl
    simp only [stopLayer, hl]
    refine ⟨?_, ?_, ?_, ?_, ?_⟩
    · rw [keys_map_keyed]
      exact h.keysNodup
    · exact List.Nodup.sublist ((List.filter_sublist _).map Prod.fst) h.layerKeysNodup
    · exact List.Nodup.sublist ((List.filter_sublist _).map Prod.snd) h.layerValsNodup
    · intro L2 k2 hmem
      obtain ⟨hmem2, hcond⟩ := List.mem_filter.mp hmem
      have hL2 : L2 ≠ L := by simpa using hcond
      obtain ⟨e, he, hp, hlay⟩ := h.activeEntry L2 k2 hmem2
      have hk2 : k2 ≠ k := by
        intro he2
        exact hL2 (val_unique h.layerValsNodup hmem2 (he2 ▸ hkL))
      refine ⟨e, mem_map_keyed.mpr ⟨e, he, ?_⟩, hp, hlay⟩
      rw [stopUpd, if_neg hk2]
    · intro k2 e2 hmem hp
      obtain ⟨e0, he0, hv⟩ := mem_map_keyed.mp hmem
      by_cases hk2 : k2 = k
      · subst hk2
        rw [stopUpd, if_pos rfl] at hv
        subst hv
        simp at hp
      · rw [stopUpd, if_neg hk2] at hv
        subst hv
        have hmem0 := h.playingActive k2 e2 he0 hp
        have hne : e2.layer ≠ L := by
          intro he2
          exact hk2 (key_unique h.layerKeysNodup (he2 ▸ hmem0) hkL)
        exact List.mem_filter.mpr ⟨hmem0, by simpa using hne⟩

theorem animInv_activate (st : AnimState) (k L : Nat)
    (f : Option Nat → CharacterAnimation → CharacterAnimation)
    (e0 : CharacterAnimation) (hk : lookupKey k st.animations = some e0)
    (h : AnimInv st) : AnimInv (activate st k L f) := by
  simp only [activate]
  refine ⟨?_, ?_, ?_, ?_, ?_⟩
  · rw [keys_map_keyed]
    exact h.keysNodup
  · rw [keys, List.map_cons, List.nodup_cons]
    constructor
    · intro hmem
      obtain ⟨p, hp, hpe⟩ := List.mem_map.mp hmem
      have hcond := (List.mem_filter.mp hp).2
      rw [hpe] at hcond
      simp at hcond
    · exact List.Nodup.sublist ((List.filter_sublist _).map Prod.fst) h.layerKeysNodup
  · rw [List.map_cons, List.nodup_cons]
    constructor
    · intro hmem
      obtain ⟨p, hp, hpe⟩ := List.mem_map.mp hmem
      have hcond := (List.mem_filter.mp hp).2
      rw [hpe] at hcond
      simp at hcond
    · exact List.Nodup.sublist ((List.filter_sublist _).map Prod.snd) h.layerValsNodup
  · intro L2 k2 hmem
    rcases List.mem_cons.mp hmem with h1 | h1
    · injection h1 with hL2 hk2
      subst hL2
      subst hk2
      refine ⟨_, mem_map_keyed.mpr ⟨e0, lookupKey_mem hk, rfl⟩, ?_, ?_⟩ <;>
        simp [activateUpd]
    · obtain ⟨hmem2, hcond⟩ := List.mem_filter.mp h1
      have hconds : L2 ≠ L ∧ k2 ≠ k := by simpa using hcond
      obtain ⟨e, he, hp, hlay⟩ := h.activeEntry L2 k2 hmem2
      refine ⟨e, mem_map_keyed.mpr ⟨e, he, ?_⟩, hp, hlay⟩
      have hprev : lookupKey L st.layers ≠ some k2 := by
        intro hp2
        exact hconds.1 (val_unique h.layerValsNodup hmem2 (lookupKey_mem hp2))
      rw [activateUpd, if_neg hconds.2, if_neg hprev]
  · intro k2 e2 hmem hp
    obtain ⟨e1, he1, hv⟩ := mem_map_keyed.mp hmem
    by_cases hk2 : k2 = k
    · subst hk2
      rw [activateUpd, if_pos rfl] at hv
      subst hv
      exact List.mem_cons_self _ _
    · by_cases hprev : lookupKey L st.layers = some k2
      · rw [activateUpd, if_neg hk2, if_pos hprev] at hv
        subst hv
        simp at hp
      · rw [activateUpd, if_neg hk2, if_neg hprev] at hv
        subst hv
        have hmem0 := h.playingActive k2 e2 he1 hp
        have hne : e2.layer ≠ L := by
          intro he2
          exact hprev (he2 ▸ mem_lookupKey h.layerKeysNodup hmem0)
        refine List.mem_cons_of_mem _ (List.mem_filter.mpr ⟨hmem0, ?_⟩)
        simpa using ⟨hne, hk2⟩

theorem animInv_play (st : AnimState) (name : Option CStr) (flags : AnimationFlags)
    (blend layer : Nat) (h : AnimInv st) :
    AnimInv (play st name flags blend layer).1 := by
  rcases name with _ | nm
  · simp only [play]
    exact animInv_stopLayer st layer h
  · rcases hl : lookupKey nm.ptr st.animations with _ | e
    · simp only [play, hl]
      exact h
    · simp only [play, hl]
      exact animInv_activate st nm.ptr layer _ e hl h

theorem animInv_clipCompleted (st : AnimState) (L : Nat) (h : AnimInv st) :
    AnimInv (clipCompleted st L) := by
  rcases hl : lookupKey L st.layers with _ | k
  · simp only [clipCompleted, hl]
    exact h
  · rcases ha : lookupKey k st.animations with _ | e
    · simp only [clipCompleted, hl, ha]
      exact h
    · rcases hf : e.animationFlags with _ | _ | _
      · simp only [clipCompleted, hl, ha, hf]
        exact animInv_stopLayer st L h
      · simp only [clipCompleted, hl, ha, hf]
        rcases hp : e.prev with _ | pk
        · exact animInv_stopLayer st L h
        · rcases hpk : lookupKey pk (stopLayer st L).animations with _ | e2
          · simp only [hpk]
            exact animInv_stopLayer st L h
          · simp only [hpk]
            exact animInv_activate _ pk L _ e2 hpk (animInv_stopLayer st L h)
      · simp only [clipCompleted, hl, ha, hf]
        exact h

theorem animInv_applyOp (st : AnimState) (op : AnimOp) (h : AnimInv st) :
    AnimInv (applyOp st op) := by
  cases op with
  | add nm c ms => exact animInv_addAnimation st nm c ms h
  | playAnim nm fl b L => exact animInv_play st nm fl b L h
  | completed L => exact animInv_clipCompleted st L h

theorem animInv_foldl (ops : List AnimOp) :
    ∀ st : AnimState, AnimInv st → AnimInv (ops.foldl applyOp st) := by
  induction ops with
  | nil => exact fun st h => h
  | cons op ops ih => exact fun st h => ih _ (animInv_applyOp st op h)

theorem animInv_runOps (ops : List AnimOp) : AnimInv (runOps ops) :=
  animInv_foldl ops initAnimState animInv_init

/-! ### Per-tick pipeline lemmas -/

theorem stepDown_anim (w : World) (s : CharacterState) (dt : ℚ) :
    (stepDown w s dt).anim = s.anim := by
  rcases hg : w.groundDistance s.position with _ | d <;>
    simp only [stepDown, hg]
  split <;> rfl

theorem stepForwardAndStrafe_anim (w : World) (s : CharacterState) (dt : ℚ) :
    (stepForwardAndStrafe w s dt).anim = s.anim := by
  rcases hs : slideLoop w s.position s.cosSlopeAngle maxSlideIterations
      (s.position + Vec3.smul dt s.currentVelocity) with _ | p <;>
    simp only [stepForwardAndStrafe, hs]

theorem updateAction_anim (w : World) (s : CharacterState) (dt : ℚ) :
    (updateAction w s dt).anim = s.anim := by
  rw [updateAction, stepDown_anim, stepForwardAndStrafe_anim]
  rfl

/-- A sliding step starting and targeting the same point stays there: the
slide of a zero movement is zero. -/
theorem updateTargetPositionFromCollision_self (start n : Vec3) :
    updateTargetPositionFromCollision start start n = start := by
  rw [updateTargetPositionFromCollision, Vec3.sub_self_eq_zero, Vec3.dot_zero_left,
    Vec3.smul_zero_scalar, Vec3.sub_zero_right]

/-- With a zero displacement the sliding loop never moves the target: it
returns the start position or exhausts its cap. -/
theorem slideLoop_self (w : World) (start : Vec3) (cosSlope : ℚ) :
    ∀ fuel : Nat, slideLoop w start cosSlope fuel start = none ∨
      slideLoop w start cosSlope fuel start = some start := by
  intro fuel
  induction fuel with
  | zero => exact Or.inl rfl
  | succ fuel ih =>
      rcases hc : w.slideContact start (start - start) with _ | n
      · right
        simp only [slideLoop, hc]
      · by_cases hw : cosSlope ≤ Vec3.dot n Vec3.up
        · right
          simp only [slideLoop, hc, if_pos hw]
        · have : slideLoop w start cosSlope (fuel + 1) start =
              slideLoop w start cosSlope fuel start := by
            simp only [slideLoop, hc, if_neg hw, updateTargetPositionFromCollision_self]
          rw [this]
          exact ih

/-- The sliding loop either exhausts its iteration cap or returns a final
position whose residual movement is contact-free or meets only walkable
contacts. -/
theorem slideLoop_result (w : World) (start : Vec3) (cosSlope : ℚ) :
    ∀ (fuel : Nat) (target : Vec3),
      slideLoop w start cosSlope fuel target = none ∨
      ∃ p, slideLoop w start cosSlope fuel target = some p ∧
        (w.slideContact start (p - start) = none ∨
         ∃ n, w.slideContact start (p - start) = some n ∧
           cosSlope ≤ Vec3.dot n Vec3.up) := by
  intro fuel
  induction fuel with
  | zero => exact fun _ => Or.inl rfl
  | succ fuel ih =>
      intro target
      rcases hc : w.slideContact start (target - start) with _ | n
      · exact Or.inr ⟨target, by simp only [slideLoop, hc], Or.inl hc⟩
      · by_cases hw : cosSlope ≤ Vec3.dot n Vec3.up
        · exact Or.inr ⟨target, by simp only [slideLoop, hc, if_pos hw],
            Or.inr ⟨n, hc, hw⟩⟩
        · have heq : slideLoop w start cosSlope (fuel + 1) target =
              slideLoop w start cosSlope fuel
                (updateTargetPositionFromCollision start target n) := by
            simp only [slideLoop, hc, if_neg hw]
          rw [heq]
          exact ih _

/-- A definitional helper: the horizontal sweep only updates the position
field of the character state. -/
theorem stepForwardAndStrafe_eq (w : World) (s : CharacterState) (dt : ℚ) :
    ∃ p, stepForwardAndStrafe w s dt = { s with position := p } := by
  rcases hs : slideLoop w s.position s.cosSlopeAngle maxSlideIterations
      (s.position + Vec3.smul dt s.currentVelocity) with _ | p
  · exact ⟨s.position, by simp only [stepForwardAndStrafe, hs]⟩
  · exact ⟨p, by simp only [stepForwardAndStrafe, hs]⟩

/-- With zero current velocity the horizontal sweep leaves the position
unchanged, whatever the world contacts are. -/
theorem stepForwardAndStrafe_position_zero_velocity (w : World) (s : CharacterState)
    (dt : ℚ) (hcv : s.currentVelocity = Vec3.zero) :
    (stepForwardAndStrafe w s dt).position = s.position := by
  have htarget : s.position + Vec3.smul dt s.currentVelocity = s.position := by
    rw [hcv, Vec3.smul_zero_vec, Vec3.add_zero_right]
  rcases slideLoop_self w s.position s.cosSlopeAngle maxSlideIterations with h | h <;>
    simp only [stepForwardAndStrafe, htarget, h]

/-- When the downward sweep finds ground within `stepHeight`, the character
snaps onto it. -/
theorem stepDown_snap (w : World) (s : CharacterState) (dt : ℚ) (d : ℚ)
    (hg : w.groundDistance s.position = some d) (hd : d ≤ s.stepHeight) :
    (stepDown w s dt).position = ⟨s.position.x, s.position.y - d, s.position.z⟩ := by
  simp only [stepDown, hg, if_pos hd]

theorem Vec3.eta_mk (v : Vec3) : (⟨v.x, v.y, v.z⟩ : Vec3) = v := rfl

/-! ### Concrete inputs used by the claim witnesses and counterexamples -/

/-- The identity orientation. -/
def identityQuat : Quaternion := ⟨0, 0, 0, 1⟩

/-- A world with no geometry at all: no contacts, no ground, gravity
`-9.8 m/s²`. -/
def airborneWorld : World := ⟨-49/5, fun _ => 0, fun _ _ => none, fun _ => none⟩

/-- A flat-ground world: open air above (clearance 1), no horizontal
contacts, and ground at height `0` (the downward sweep from a point at
height `y` travels distance `y`). -/
def groundedWorld : World := ⟨-49/5, fun _ => 1, fun _ _ => none, fun p => some p.y⟩

/-- A registered idle animation with zero move-speed, playing on layer 0. -/
def zeroAnimEntry : CharacterAnimation :=
  ⟨⟨1, "idle"⟩, 7, 0, 0, true, .ANIMATION_REPEAT, 0, none⟩

/-- An animation table with the zero-speed entry active on layer 0. -/
def zeroSpeedAnimState : AnimState := ⟨[(1, zeroAnimEntry)], [(0, 1)]⟩

/-- A character at rest at the origin: zero velocity inputs and a bound
animation of zero move-speed. -/
def restState : CharacterState :=
  ⟨Vec3.zero, identityQuat, Vec3.zero, 0, 0, 0, Vec3.zero, zeroSpeedAnimState,
   3/10, 7/10⟩

/-- The unit surface normal of a slope at about `36.9°` from vertical. -/
def slopeNormal : Vec3 := ⟨-3/5, 4/5, 0⟩

/-- A world whose horizontal sweep along `(1,0,0)` hits the slope with
normal `slopeNormal` and is otherwise free. -/
def slopeWorld : World :=
  ⟨-49/5, fun _ => 0,
   fun _ d => if d = ⟨1, 0, 0⟩ then some slopeNormal else none,
   fun _ => none⟩

/-- A character about to sweep along `(1,0,0)` with slope-limit cosine
`9/10` (limit about `25.8°`, stricter than the `36.9°` contact). -/
def slopeState : CharacterState :=
  ⟨Vec3.zero, identityQuat, Vec3.zero, 0, 0, 0, ⟨1, 0, 0⟩, initAnimState,
   3/10, 9/10⟩

/-- The unit uphill tangent of the slope with normal `slopeNormal`. -/
def uphillDir : Vec3 := ⟨4/5, 3/5, 0⟩

/-- A character state with nonzero velocity inputs and a nontrivial
orientation, with no animation bound. -/
def velDemo : CharacterState :=
  ⟨Vec3.zero, ⟨1/2, 1/2, 1/2, 1/2⟩, ⟨1, 2, 3⟩, 2, 3, 0, Vec3.zero, initAnimState,
   3/10, 7/10⟩

/-- An animation state with a `STOP` animation playing on layer 0. -/
def stopDemo : AnimState :=
  (play (addAnimation initAnimState ⟨1, "shoot"⟩ 7 2).1 (some ⟨1, "shoot"⟩)
    AnimationFlags.ANIMATION_STOP 5 0).1

/-- A demo operation sequence: register an animation, then play it. -/
def demoOps : List AnimOp :=
  [.add ⟨1, "run"⟩ 7 2, .playAnim (some ⟨1, "run"⟩) .ANIMATION_REPEAT 0 0]

/-! ### Claims -/

/-- C1 (amended): with zero velocity inputs (zero move-velocity vector,
zero forward and right scalars) and a zero active animation move-speed, one
per-tick update leaves the character's position unchanged, provided the
character is grounded: the downward sweep from the stepped-up position
finds ground at exactly the stepped-up distance.  (As stated, without the
grounded proviso, the claim fails: see the counterexample, where gravity
moves an airborne character with all-zero velocity inputs.) -/
theorem update_position_unchanged_of_zero_velocity_grounded
    (w : World) (s : CharacterState) (dt : ℚ)
    (hmv : s.moveVelocity = Vec3.zero)
    (hf : s.forwardVelocity = 0)
    (hr : s.rightVelocity = 0)
    (_hms : activeMoveSpeed s.anim = some 0)
    (hg : w.groundDistance
        ⟨s.position.x,
         s.position.y + min s.stepHeight (w.stepUpClearance s.position),
         s.position.z⟩ =
      some (min s.stepHeight (w.stepUpClearance s.position))) :
    (updateAction w s dt).position = s.position := by
  have hloc : Vec3.smul (0 : ℚ) localForward + Vec3.smul (0 : ℚ) localRight +
      Vec3.zero = Vec3.zero := by
    norm_num [Vec3.smul, localForward, localRight, Vec3.zero, Vec3.add_def]
  have hcv : (updateCurrentVelocity s).currentVelocity = Vec3.zero := by
    simp only [updateCurrentVelocity, hmv, hf, hr, hloc]
    rw [Quaternion.rotate_zero, Vec3.smul_zero_vec]
  have hpos1 : (stepUp w (updateCurrentVelocity s)).position =
      ⟨s.position.x,
       s.position.y + min s.stepHeight (w.stepUpClearance s.position),
       s.position.z⟩ := rfl
  have hcv2 : (stepUp w (updateCurrentVelocity s)).currentVelocity = Vec3.zero := hcv
  have hpos2 : (stepForwardAndStrafe w (stepUp w (updateCurrentVelocity s)) dt).position =
      ⟨s.position.x,
       s.position.y + min s.stepHeight (w.stepUpClearance s.position),
       s.position.z⟩ := by
    rw [stepForwardAndStrafe_position_zero_velocity w _ dt hcv2, hpos1]
  have hgd : w.groundDistance
      (stepForwardAndStrafe w (stepUp w (updateCurrentVelocity s)) dt).position =
      some (min s.stepHeight (w.stepUpClearance s.position)) := by
    rw [hpos2]
    exact hg
  have hdle : min s.stepHeight (w.stepUpClearance s.position) ≤
      (stepForwardAndStrafe w (stepUp w (updateCurrentVelocity s)) dt).stepHeight := by
    obtain ⟨p, hp⟩ := stepForwardAndStrafe_eq w (stepUp w (updateCurrentVelocity s)) dt
    rw [hp]
    exact min_le_left _ _
  have hfinal := stepDown_snap w
    (stepForwardAndStrafe w (stepUp w (updateCurrentVelocity s)) dt) dt
    (min s.stepHeight (w.stepUpClearance s.position)) hgd hdle
  rw [updateAction, hfinal, hpos2]
  show (⟨s.position.x,
        s.position.y + min s.stepHeight (w.stepUpClearance s.position) -
          min s.stepHeight (w.stepUpClearance s.position),
        s.position.z⟩ : Vec3) = s.position
  rw [add_sub_cancel_right, Vec3.eta_mk]

/-- Witness for C1 (amended): a character at rest on flat ground stays
exactly in place over a tick. -/
theorem update_position_unchanged_of_zero_velocity_grounded_witness :
    (updateAction groundedWorld restState (1/60)).position = restState.position :=
  update_position_unchanged_of_zero_velocity_grounded groundedWorld restState (1/60)
    rfl rfl rfl rfl (by simp [groundedWorld, restState, Vec3.zero])

/-- C1 counterexample: with all velocity inputs zero and a zero active
animation move-speed, but no ground below, one per-tick update moves the
character (gravity integration), so the claim as stated — position
unchanged for every character state — is false. -/
theorem claim_update_noDrift_counterexample :
    restState.moveVelocity = Vec3.zero ∧
    restState.forwardVelocity = 0 ∧
    restState.rightVelocity = 0 ∧
    activeMoveSpeed restState.anim = some 0 ∧
    (updateAction airborneWorld restState (1/60)).position ≠ restState.position := by
  refine ⟨rfl, rfl, rfl, rfl, ?_⟩
  have hcv : (updateCurrentVelocity restState).currentVelocity = Vec3.zero := by
    show Vec3.smul ((activeMoveSpeed restState.anim).getD 1) _ = Vec3.zero
    rw [show activeMoveSpeed restState.anim = some 0 from rfl]
    exact Vec3.smul_zero_scalar _
  have hcv2 : (stepUp airborneWorld (updateCurrentVelocity restState)).currentVelocity =
      Vec3.zero := hcv
  have hp2 : (stepForwardAndStrafe airborneWorld
      (stepUp airborneWorld (updateCurrentVelocity restState)) (1/60)).position =
      ⟨0, 0 + min (3/10) 0, 0⟩ := by
    rw [stepForwardAndStrafe_position_zero_velocity _ _ _ hcv2]
    rfl
  obtain ⟨p, hp⟩ := stepForwardAndStrafe_eq airborneWorld
    (stepUp airborneWorld (updateCurrentVelocity restState)) (1/60)
  have hpe : p = ⟨0, 0 + min (3/10) 0, 0⟩ := by
    rw [← hp2, hp]
  have hy : (updateAction airborneWorld restState (1/60)).position.y =
      (0 + min (3/10) 0) + ((0 + (-49/5) * (1/60)) * (1/60)) := by
    rw [updateAction, hp, hpe]
    rfl
  intro heq
  rw [heq] at hy
  rw [min_eq_right (by norm_num : (0 : ℚ) ≤ 3/10)] at hy
  norm_num [restState, Vec3.zero] at hy

/-- C2 (amended): on a per-tick horizontal sweep contact whose normal fails
the slope gate (cosine against vertical below the precomputed
`_cosSlopeAngle`), movement into the surface is fully blocked — the slid
displacement has zero component along the contact normal and equals the
tangential remainder of the displacement — and the loop continues with the
slid displacement; on a contact whose angle is within the slope limit
(cosine at least `_cosSlopeAngle`) the character proceeds unobstructed.
(As stated — zero displacement component along the slope's uphill
direction — the claim is false: see the counterexample.) -/
theorem slope_gate_blocks_normal_component
    (w : World) (start target n : Vec3) (cosSlope : ℚ) (fuel : Nat)
    (hn : Vec3.dot n n = 1)
    (hc : w.slideContact start (target - start) = some n) :
    (Vec3.dot n Vec3.up < cosSlope →
      Vec3.dot (updateTargetPositionFromCollision start target n - start) n = 0 ∧
      updateTargetPositionFromCollision start target n - start =
        (target - start) - Vec3.smul (Vec3.dot (target - start) n) n ∧
      slideLoop w start cosSlope (fuel + 1) target =
        slideLoop w start cosSlope fuel
          (updateTargetPositionFromCollision start target n)) ∧
    (cosSlope ≤ Vec3.dot n Vec3.up →
      slideLoop w start cosSlope (fuel + 1) target = some target) := by
  constructor
  · intro hlt
    refine ⟨?_, ?_, ?_⟩
    · obtain ⟨sx, sy, sz⟩ := start
      obtain ⟨tx, ty, tz⟩ := target
      obtain ⟨nx, ny, nz⟩ := n
      simp only [updateTargetPositionFromCollision, Vec3.sub_def, Vec3.smul,
        Vec3.dot] at hn ⊢
      linear_combination
        (-((tx - sx) * nx + (ty - sy) * ny + (tz - sz) * nz)) * hn
    · obtain ⟨sx, sy, sz⟩ := start
      obtain ⟨tx, ty, tz⟩ := target
      obtain ⟨nx, ny, nz⟩ := n
      simp only [updateTargetPositionFromCollision, Vec3.sub_def, Vec3.smul,
        Vec3.dot]
      rw [Vec3.mk.injEq]
      refine ⟨by ring, by ring, by ring⟩
    · simp only [slideLoop, hc, if_neg (not_le.mpr hlt)]
  · intro hge
    simp only [slideLoop, hc, if_pos hge]

/-- Witness for C2 (amended): the concrete steep contact of `slopeWorld`
is slid with zero residual component along the normal, and the loop steps
to the slid displacement. -/
theorem slope_gate_blocks_normal_component_witness :
    Vec3.dot (updateTargetPositionFromCollision Vec3.zero ⟨1, 0, 0⟩ slopeNormal -
        Vec3.zero) slopeNormal = 0 ∧
    slideLoop slopeWorld Vec3.zero (9/10) 4 ⟨1, 0, 0⟩ =
      slideLoop slopeWorld Vec3.zero (9/10) 3
        (updateTargetPositionFromCollision Vec3.zero ⟨1, 0, 0⟩ slopeNormal) := by
  have hn : Vec3.dot slopeNormal slopeNormal = 1 := by
    norm_num [Vec3.dot, slopeNormal]
  have hc : slopeWorld.slideContact Vec3.zero ((⟨1, 0, 0⟩ : Vec3) - Vec3.zero) =
      some slopeNormal := by
    norm_num [slopeWorld, Vec3.sub_def, Vec3.zero]
  have hlt : Vec3.dot slopeNormal Vec3.up < 9/10 := by
    norm_num [Vec3.dot, slopeNormal, Vec3.up]
  have h := slope_gate_blocks_normal_component slopeWorld Vec3.zero ⟨1, 0, 0⟩
    slopeNormal (9/10) 3 hn hc
  exact ⟨(h.1 hlt).1, (h.1 hlt).2.2⟩

/-- C2 counterexample: on a contact steeper than the slope limit, the
post-update displacement's component along the slope's unit uphill tangent
`uphillDir` is `4/5 ≠ 0`: collide-and-slide zeroes the component along the
contact normal, not along the uphill direction. -/
theorem claim_slope_uphill_zero_counterexample :
    Vec3.dot slopeNormal slopeNormal = 1 ∧
    Vec3.dot slopeNormal Vec3.up < slopeState.cosSlopeAngle ∧
    Vec3.dot uphillDir uphillDir = 1 ∧
    Vec3.dot uphillDir slopeNormal = 0 ∧
    (0 : ℚ) < uphillDir.y ∧
    Vec3.smul (3/5) uphillDir =
      Vec3.up - Vec3.smul (Vec3.dot Vec3.up slopeNormal) slopeNormal ∧
    (stepForwardAndStrafe slopeWorld slopeState 1).position = ⟨16/25, 12/25, 0⟩ ∧
    Vec3.dot ((stepForwardAndStrafe slopeWorld slopeState 1).position -
        slopeState.position) uphillDir = 4/5 ∧
    (4/5 : ℚ) ≠ 0 := by
  have hc1 : slopeWorld.slideContact slopeState.position
      ((⟨1, 0, 0⟩ : Vec3) - slopeState.position) = some slopeNormal := by
    norm_num [slopeWorld, slopeState, Vec3.sub_def, Vec3.zero]
  have hng : ¬ ((9 : ℚ)/10 ≤ Vec3.dot slopeNormal Vec3.up) := by
    norm_num [Vec3.dot, slopeNormal, Vec3.up]
  have hupd : updateTargetPositionFromCollision slopeState.position ⟨1, 0, 0⟩
      slopeNormal = ⟨16/25, 12/25, 0⟩ := by
    norm_num [updateTargetPositionFromCollision, slopeState, Vec3.sub_def,
      Vec3.smul, Vec3.dot, Vec3.zero, slopeNormal, Vec3.add_def]
  have hc2 : slopeWorld.slideContact slopeState.position
      ((⟨16/25, 12/25, 0⟩ : Vec3) - slopeState.position) = none := by
    norm_num [slopeWorld, slopeState, Vec3.sub_def, Vec3.zero, Vec3.mk.injEq]
  have step1 : slideLoop slopeWorld slopeState.position (9/10) (3 + 1) ⟨1, 0, 0⟩ =
      slideLoop slopeWorld slopeState.position (9/10) 3 ⟨16/25, 12/25, 0⟩ := by
    simp only [slideLoop, hc1]
    rw [if_neg hng, hupd]
  have step2 : slideLoop slopeWorld slopeState.position (9/10) (2 + 1)
      ⟨16/25, 12/25, 0⟩ = some ⟨16/25, 12/25, 0⟩ := by
    simp only [slideLoop, hc2]
  have hd1 : slopeState.position + Vec3.smul 1 slopeState.currentVelocity =
      ⟨1, 0, 0⟩ := by
    norm_num [slopeState, Vec3.add_def, Vec3.smul, Vec3.zero]
  have hpos : (stepForwardAndStrafe slopeWorld slopeState 1).position =
      ⟨16/25, 12/25, 0⟩ := by
    have hlp : slideLoop slopeWorld slopeState.position slopeState.cosSlopeAngle
        maxSlideIterations
        (slopeState.position + Vec3.smul 1 slopeState.currentVelocity) =
        some ⟨16/25, 12/25, 0⟩ := by
      rw [hd1]
      show slideLoop slopeWorld slopeState.position (9/10) (3 + 1) ⟨1, 0, 0⟩ = _
      rw [step1]
      show slideLoop slopeWorld slopeState.position (9/10) (2 + 1)
        ⟨16/25, 12/25, 0⟩ = _
      rw [step2]
    simp only [stepForwardAndStrafe, hlp]
  refine ⟨by norm_num [Vec3.dot, slopeNormal],
    by norm_num [Vec3.dot, slopeNormal, Vec3.up, slopeState],
    by norm_num [Vec3.dot, uphillDir],
    by norm_num [Vec3.dot, uphillDir, slopeNormal],
    by norm_num [uphillDir],
    by norm_num [Vec3.smul, uphillDir, Vec3.up, Vec3.dot, slopeNormal, Vec3.sub_def],
    hpos, ?_, by norm_num⟩
  rw [hpos]
  norm_num [Vec3.dot, slopeState, Vec3.sub_def, Vec3.zero, uphillDir]

/-- C3: registering a second animation under an already-registered name is
rejected with a duplicate-key error, the table (in particular the
previously registered entry, with its clip, move-speed and layer) being
left unchanged by the rejected call. -/
theorem addAnimation_duplicate_rejected (st : AnimState) (nm : CStr)
    (e : CharacterAnimation) (clip2 : Nat) (ms2 : ℚ)
    (h : lookupKey nm.ptr st.animations = some e) :
    addAnimation st nm clip2 ms2 = (st, some AnimError.DuplicateKey) ∧
    lookupKey nm.ptr (addAnimation st nm clip2 ms2).1.animations = some e := by
  constructor
  · simp only [addAnimation, h]
  · simp only [addAnimation, h]

/-- Witness for C3: registering "walk" twice — the second call is rejected
and the first entry survives unchanged. -/
theorem addAnimation_duplicate_rejected_witness :
    addAnimation (addAnimation initAnimState ⟨1, "walk"⟩ 7 2).1 ⟨1, "walk"⟩ 9 3 =
      ((addAnimation initAnimState ⟨1, "walk"⟩ 7 2).1, some AnimError.DuplicateKey) ∧
    lookupKey 1 (addAnimation (addAnimation initAnimState ⟨1, "walk"⟩ 7 2).1
        ⟨1, "walk"⟩ 9 3).1.animations =
      some ⟨⟨1, "walk"⟩, 7, 2, 0, false, .ANIMATION_STOP, 0, none⟩ :=
  addAnimation_duplicate_rejected (addAnimation initAnimState ⟨1, "walk"⟩ 7 2).1
    ⟨1, "walk"⟩ ⟨⟨1, "walk"⟩, 7, 2, 0, false, .ANIMATION_STOP, 0, none⟩ 9 3 (by decide)

/-- In the empty world every tick adds exactly `gravity * dt` to the fall
velocity, whatever the rest of the state is. -/
theorem updateAction_airborne_fallVelocity (s : CharacterState) (dt : ℚ) :
    (updateAction airborneWorld s dt).fallVelocity =
      s.fallVelocity + (-49/5) * dt := by
  obtain ⟨p, hp⟩ := stepForwardAndStrafe_eq airborneWorld
    (stepUp airborneWorld (updateCurrentVelocity s)) dt
  rw [updateAction, hp]
  rfl

/-- C4: on an airborne tick (no ground within `stepHeight`), the fall
velocity is updated by exactly `fallVelocity += gravity * dt` and the
resulting downward displacement is applied; concretely, from
`fallVelocity = 0` with gravity `-9.8 m/s²`, ten ticks of the full
per-tick update at `dt = 1/60` give fall velocity
`-9.8 * 10/60 = -49/30 ≈ -1.633 m/s`. -/
theorem stepDown_airborne_gravity_integration :
    (∀ (w : World) (s : CharacterState) (dt : ℚ), isAirborne w s = true →
        (stepDown w s dt).fallVelocity = s.fallVelocity + w.gravity * dt ∧
        (stepDown w s dt).position.y =
          s.position.y + (s.fallVelocity + w.gravity * dt) * dt) ∧
    (Nat.iterate (fun s => updateAction airborneWorld s (1/60)) 10
        restState).fallVelocity = -49/30 := by
  constructor
  · intro w s dt hair
    rw [isAirborne] at hair
    rcases hg : w.groundDistance s.position with _ | d
    · constructor <;> simp only [stepDown, hg]
    · rw [hg] at hair
      simp only [decide_eq_true_eq] at hair
      have hnle : ¬ d ≤ s.stepHeight := not_le.mpr hair
      constructor <;> simp only [stepDown, hg, if_neg hnle]
  · have h : ∀ (n : Nat) (s : CharacterState),
        (Nat.iterate (fun s => updateAction airborneWorld s (1/60)) n s).fallVelocity =
          s.fallVelocity + n * ((-49/5) * (1/60)) := by
      intro n
      induction n with
      | zero => intro s; simp
      | succ n ih =>
          intro s
          rw [Function.iterate_succ_apply', updateAction_airborne_fallVelocity, ih]
          push_cast
          ring
    rw [h]
    norm_num [restState]

/-- Witness for C4: one airborne tick from rest integrates gravity into the
fall velocity and displaces the character downward accordingly. -/
theorem stepDown_airborne_gravity_integration_witness :
    (stepDown airborneWorld restState (1/60)).fallVelocity =
      restState.fallVelocity + airborneWorld.gravity * (1/60) ∧
    (stepDown airborneWorld restState (1/60)).position.y =
      restState.position.y +
        (restState.fallVelocity + airborneWorld.gravity * (1/60)) * (1/60) :=
  stepDown_airborne_gravity_integration.1 airborneWorld restState (1/60) rfl

/-- C5: the sliding-resolution loop of the horizontal sweep terminates for
every world and state within the fixed iteration cap: either it returns a
final position whose residual movement meets no new penetration (or only a
walkable contact), or the cap is exhausted and the tick completes with the
horizontal movement frozen at the starting position; in every case the
per-tick update returns a state, propagating no error. -/
theorem slide_resolution_cap_freezes (w : World) (s : CharacterState) (dt : ℚ) :
    (slideLoop w s.position s.cosSlopeAngle maxSlideIterations
        (s.position + Vec3.smul dt s.currentVelocity) = none ∧
      (stepForwardAndStrafe w s dt).position = s.position) ∨
    (∃ p, slideLoop w s.position s.cosSlopeAngle maxSlideIterations
        (s.position + Vec3.smul dt s.currentVelocity) = some p ∧
      (stepForwardAndStrafe w s dt).position = p ∧
      (w.slideContact s.position (p - s.position) = none ∨
       ∃ n, w.slideContact s.position (p - s.position) = some n ∧
         s.cosSlopeAngle ≤ Vec3.dot n Vec3.up)) := by
  rcases slideLoop_result w s.position s.cosSlopeAngle maxSlideIterations
      (s.position + Vec3.smul dt s.currentVelocity) with h | ⟨p, hp, hres⟩
  · exact Or.inl ⟨h, by simp only [stepForwardAndStrafe, h]⟩
  · exact Or.inr ⟨p, hp, by simp only [stepForwardAndStrafe, hp], hres⟩

/-- C6: an active `ANIMATION_REPEAT` animation never transitions its layer
to Idle on the clip's completion signal (the completion is a no-op); an
active `ANIMATION_STOP` animation transitions its layer to Idle exactly
once, immediately upon the completion signal (a second completion on the
now-idle layer is a no-op), and not before — the per-tick physics update
never changes the animation state, so between explicit operations and
completion signals the layer stays as it is. -/
theorem animation_flags_auto_transition
    (st : AnimState) (L k : Nat) (e : CharacterAnimation)
    (hL : lookupKey L st.layers = some k)
    (he : lookupKey k st.animations = some e) :
    (e.animationFlags = AnimationFlags.ANIMATION_REPEAT → clipCompleted st L = st) ∧
    (e.animationFlags = AnimationFlags.ANIMATION_STOP →
      lookupKey L (clipCompleted st L).layers = none ∧
      clipCompleted (clipCompleted st L) L = clipCompleted st L) ∧
    (∀ (w : World) (s : CharacterState) (dt : ℚ),
      (updateAction w s dt).anim = s.anim) := by
  refine ⟨?_, ?_, fun w s dt => updateAction_anim w s dt⟩
  · intro hf
    simp only [clipCompleted, hL, he, hf]
  · intro hf
    have hcc : clipCompleted st L = stopLayer st L := by
      simp only [clipCompleted, hL, he, hf]
    have hnone : lookupKey L (clipCompleted st L).layers = none := by
      rw [hcc]
      simp only [stopLayer, hL]
      exact lookupKey_filter_ne_none L st.layers
    refine ⟨hnone, ?_⟩
    generalize hst2 : clipCompleted st L = st2 at hnone
    rw [← hst2]
    rw [hst2]
    simp only [clipCompleted, hnone]

/-- Witness for C6: with a `STOP` animation active on layer 0, the
completion signal idles the layer and a repeated signal is a no-op. -/
theorem animation_flags_auto_transition_witness :
    lookupKey 0 (clipCompleted stopDemo 0).layers = none ∧
    clipCompleted (clipCompleted stopDemo 0) 0 = clipCompleted stopDemo 0 :=
  (animation_flags_auto_transition stopDemo 0 1
      ⟨⟨1, "shoot"⟩, 7, 2, 0, true, AnimationFlags.ANIMATION_STOP, 5, none⟩
      (by decide) (by decide)).2.1 rfl

/-- C7: after every sequence of animation operations from the initial
state, the animation state satisfies: the table holds at most one entry per
name key, at most one entry per layer is playing, and every entry installed
as a layer's active entry is playing. -/
theorem animation_state_invariants (ops : List AnimOp) :
    (keys (runOps ops).animations).Nodup ∧
    (∀ k1 e1 k2 e2, (k1, e1) ∈ (runOps ops).animations →
        (k2, e2) ∈ (runOps ops).animations → e1.playing = true →
        e2.playing = true → e1.layer = e2.layer → k1 = k2) ∧
    (∀ layer k, (layer, k) ∈ (runOps ops).layers →
        ∃ e, (k, e) ∈ (runOps ops).animations ∧ e.playing = true) := by
  have h := animInv_runOps ops
  refine ⟨h.keysNodup, ?_, ?_⟩
  · intro k1 e1 k2 e2 h1 h2 hp1 hp2 hlay
    have m1 := h.playingActive k1 e1 h1 hp1
    have m2 := h.playingActive k2 e2 h2 hp2
    rw [hlay] at m1
    exact key_unique h.layerKeysNodup m1 m2
  · intro layer k hm
    obtain ⟨e, he, hp, _⟩ := h.activeEntry layer k hm
    exact ⟨e, he, hp⟩

/-- Witness for C7: after registering and playing one animation, layer 0's
active entry is indeed a registered, playing entry. -/
theorem animation_state_invariants_witness :
    ∃ e, (1, e) ∈ (runOps demoOps).animations ∧ e.playing = true :=
  (animation_state_invariants demoOps).2.2 0 1 (by decide)

/-- C8: the velocity composer produces the additive combination of the
forward-scalar, right-scalar and explicit move-velocity contributions in
the character's local basis, rotated into world space by the current
orientation and scaled by the active animation's move-speed; when no
animation is bound the scale is `1.0` (the rotated combination itself). -/
theorem updateCurrentVelocity_composition (s : CharacterState) :
    (updateCurrentVelocity s).currentVelocity =
      Vec3.smul ((activeMoveSpeed s.anim).getD 1)
        (Quaternion.rotate s.orientation (Vec3.smul s.forwardVelocity localForward) +
         Quaternion.rotate s.orientation (Vec3.smul s.rightVelocity localRight) +
         Quaternion.rotate s.orientation s.moveVelocity) ∧
    (s.anim.layers = [] →
      (updateCurrentVelocity s).currentVelocity =
        Quaternion.rotate s.orientation
          (Vec3.smul s.forwardVelocity localForward +
           Vec3.smul s.rightVelocity localRight + s.moveVelocity)) := by
  constructor
  · show Vec3.smul ((activeMoveSpeed s.anim).getD 1)
        (Quaternion.rotate s.orientation
          (Vec3.smul s.forwardVelocity localForward +
           Vec3.smul s.rightVelocity localRight + s.moveVelocity)) = _
    rw [Quaternion.rotate_add, Quaternion.rotate_add]
  · intro h
    show Vec3.smul ((activeMoveSpeed s.anim).getD 1)
        (Quaternion.rotate s.orientation
          (Vec3.smul s.forwardVelocity localForward +
           Vec3.smul s.rightVelocity localRight + s.moveVelocity)) = _
    simp only [activeMoveSpeed, h, Option.getD_none]
    exact Vec3.smul_one _

/-- Witness for C8: the composition law evaluated at a state with nonzero
inputs, a nontrivial orientation and no animation bound. -/
theorem updateCurrentVelocity_composition_witness :
    (updateCurrentVelocity velDemo).currentVelocity =
      Vec3.smul ((activeMoveSpeed velDemo.anim).getD 1)
        (Quaternion.rotate velDemo.orientation
          (Vec3.smul velDemo.forwardVelocity localForward) +
         Quaternion.rotate velDemo.orientation
          (Vec3.smul velDemo.rightVelocity localRight) +
         Quaternion.rotate velDemo.orientation velDemo.moveVelocity) ∧
    (updateCurrentVelocity velDemo).currentVelocity =
      Quaternion.rotate velDemo.orientation
        (Vec3.smul velDemo.forwardVelocity localForward +
         Vec3.smul velDemo.rightVelocity localRight + velDemo.moveVelocity) :=
  ⟨(updateCurrentVelocity_composition velDemo).1,
   (updateCurrentVelocity_composition velDemo).2 rfl⟩

/-- C9: the animation table is keyed on pointer identity, not string
content: there are two distinct `const char*` values pointing at equal
character data such that registering under the first leaves `getAnimation`
and `play` with the second unable to find the entry, and a registration
under the second is not detected as a duplicate. -/
theorem animation_lookup_pointer_identity :
    ∃ p1 p2 : CStr, p1 ≠ p2 ∧ p1.str = p2.str ∧
      getAnimation (addAnimation initAnimState p1 7 2).1 p2 = none ∧
      play (addAnimation initAnimState p1 7 2).1 (some p2)
          AnimationFlags.ANIMATION_REPEAT 0 0 =
        ((addAnimation initAnimState p1 7 2).1, some AnimError.NotFound) ∧
      (addAnimation (addAnimation initAnimState p1 7 2).1 p2 8 3).2 = none ∧
      getAnimation (addAnimation initAnimState p1 7 2).1 p1 = some 7 :=
  ⟨⟨1, "walk"⟩, ⟨2, "walk"⟩, by decide, rfl, rfl, rfl, rfl, rfl⟩

/-- C10: `Quaternion::operator*` leaves the receiver unchanged and returns
the product of a copy of the receiver with the argument, and
`Quaternion::operator*=` mutates the receiver to exactly the value
`operator*` would have returned for the receiver's prior value, returning a
reference to the receiver; both agree with the underlying `multiply`. -/
theorem quaternion_mul_assign_agree (a b : Quaternion) :
    (a.opMul b).1 = a ∧
    (a.opMul b).2 = a.multiply b ∧
    (a.opMulAssign b).1 = (a.opMul b).2 ∧
    (a.opMulAssign b).2 = (a.opMulAssign b).1 :=
  ⟨rfl, rfl, rfl, rfl⟩

end GamePlay
